import Mathlib

/-!
Verification of the extraction/retry/pagination engine of the
`ai-job-finder` jobspy-service (Python sources: `google_scraper.py`,
`bulk_google_scrape.py`, `test_dataimpulse_500.py`, `proxy_pool.py`).

Text is modelled as `List Char` (Python `str`), with executable
re-implementations of the string primitives the code uses
(`str.lower`, `in`, `str.strip`, `str.split`, `str.replace`,
`str.startswith`), so that every definition evaluates by `decide`.
-/

namespace JobFinder

/-- Python strings are modelled as lists of characters. -/
abbrev Str := List Char

/-- ASCII lower-casing of one character, as Python `str.lower` acts on
the ASCII inputs occurring in this code base. -/
def lowerChar (c : Char) : Char :=
  if 'A' ≤ c ∧ c ≤ 'Z' then Char.ofNat (c.toNat + 32) else c

/-- Python `s.lower()`. -/
def lowerStr (s : Str) : Str := s.map lowerChar

/-- Helper for Python `in`: `needle` occurs at the start of `hay`. -/
def isPre : Str → Str → Bool
  | [], _ => true
  | _ :: _, [] => false
  | c :: cs, d :: ds => c = d && isPre cs ds

/-- Python `needle in hay` for strings: `needle` occurs contiguously in
`hay` (the empty needle always occurs). -/
def hasSub (needle : Str) : Str → Bool
  | [] => isPre needle []
  | d :: ds => isPre needle (d :: ds) || hasSub needle ds

/-- Python `s.strip()`: drop whitespace from both ends. -/
def pyStrip (s : Str) : Str :=
  ((s.dropWhile Char.isWhitespace).reverse.dropWhile Char.isWhitespace).reverse

/-- Python `s.split(sep)` for a one-character separator. -/
def pySplitChar (sep : Char) : Str → List Str
  | [] => [[]]
  | c :: cs =>
      let rest := pySplitChar sep cs
      if c = sep then [] :: rest
      else match rest with
        | [] => [[c]]
        | r :: rs => (c :: r) :: rs

/-- Python `s.replace(old, '')` for a one-character `old`: removes every
occurrence of that character. -/
def pyRemoveChar (old : Char) (s : Str) : Str := s.filter (· ≠ old)

/-- Python `s.startswith(p)`. -/
def pyStartsWith (p s : Str) : Bool := isPre p s

/-!
Section: data model (`google_scraper.py`)

`ApplyUrl` and `GoogleJob` are the two dataclasses of `google_scraper.py`.
-/

/-- Dataclass `ApplyUrl`: a single apply URL from a job listing. -/
structure ApplyUrl where
  url : Str
  source : Str
deriving DecidableEq

/-- Dataclass `GoogleJob`: a job listing from Google Jobs. -/
structure GoogleJob where
  title : Str
  company : Str
  location : Str
  description : Option Str
  apply_urls : List ApplyUrl
  search_query : Str
  posted_date : Option Str
deriving DecidableEq

/-!
Section: block detection (`google_scraper.py`, `_scrape_with_proxy`, lines 210-216)

After the page is loaded the attempt checks the content:
blocked when `'unusual traffic' in content.lower() or 'captcha' in
content.lower()`, partial-load when `len(content) < 50000`, otherwise
extraction proceeds.
-/

/-- Outcome of the post-load content check in `_scrape_with_proxy`. -/
inductive ContentCheck where
  | blocked
  | shortLoad
  | usable
deriving DecidableEq

/-- The content check of `_scrape_with_proxy` (google_scraper.py 210-216):
raise "Blocked by Google" on a bot-challenge signature, raise
"Partial page load" when the content is shorter than 50000, else
proceed to extraction. -/
def classifyContent (content : Str) : ContentCheck :=
  if hasSub "unusual traffic".data (lowerStr content) ||
     hasSub "captcha".data (lowerStr content) then .blocked
  else if content.length < 50000 then .shortLoad
  else .usable

/-!
Section: retry controller (`google_scraper.py`, `GoogleJobsScraper.scrape`, lines 141-155)

One attempt (`_scrape_with_proxy`) either raises or yields a job list.
The retry loop catches every exception, returns a non-empty attempt
result immediately, sleeps `2 ** attempt + uniform(1, 3)` after each
failed attempt, and returns `[]` after `max_retries` attempts.
-/

/-- What one `_scrape_with_proxy` attempt does, as observed by `scrape`:
it either raises an exception or yields a list of jobs. -/
inductive AttemptOutcome where
  | raised
  | yields (jobs : List GoogleJob)
deriving DecidableEq

/-- A job list counts as a success for `scrape` iff it is non-empty
(`if jobs: return jobs`). -/
def AttemptOutcome.successful : AttemptOutcome → Bool
  | .raised => false
  | .yields [] => false
  | .yields (_ :: _) => true

/-- The value a successful attempt returns (`[]` otherwise). -/
def AttemptOutcome.jobList : AttemptOutcome → List GoogleJob
  | .raised => []
  | .yields js => js

/-- Trace of one `scrape` call: the returned list, how many attempts ran,
and the attempt indices after which a backoff sleep was performed. -/
structure ScrapeTrace where
  result : List GoogleJob
  attemptsRun : Nat
  sleeps : List Nat
deriving DecidableEq

/-- The retry loop of `GoogleJobsScraper.scrape` (google_scraper.py
141-155), with `outcome i` the behaviour of the `i`-th
`_scrape_with_proxy` attempt.  A non-empty attempt result is returned
at once; a raised exception or an empty result is followed by a
backoff sleep for that attempt index; after `maxRetries` attempts the
loop falls through to `return []`. -/
def scrapeAux (outcome : Nat → AttemptOutcome) (maxRetries attempt : Nat) :
    ScrapeTrace :=
  if h : attempt < maxRetries then
    if (outcome attempt).successful then
      ⟨(outcome attempt).jobList, attempt + 1, []⟩
    else
      let t := scrapeAux outcome maxRetries (attempt + 1)
      ⟨t.result, t.attemptsRun, attempt :: t.sleeps⟩
  else
    ⟨[], attempt, []⟩
termination_by maxRetries - attempt
decreasing_by omega

/-- Function `GoogleJobsScraper.scrape` as a total function on attempt behaviours:
every exception of an attempt is caught inside the loop, so the call
itself never raises. -/
def scrape (outcome : Nat → AttemptOutcome) (maxRetries : Nat) : ScrapeTrace :=
  scrapeAux outcome maxRetries 0

/-!
Section: backoff (`google_scraper.py`, line 151)

`delay = (2 ** attempt) + random.uniform(1, 3)`.
-/

/-- The backoff delay slept after failed attempt number `attempt`, with
`jitter` the value drawn by `random.uniform(1, 3)`
(google_scraper.py 151). -/
def backoffDelay (attempt : Nat) (jitter : ℚ) : ℚ :=
  2 ^ attempt + jitter

/-!
Section: text extractor (`test_dataimpulse_500.py`, `extract_jobs_from_page`, lines 112-164)

The body text is split into trimmed non-empty lines; a sliding index
scans them.  A line is a title when it contains a job keyword
case-insensitively, its length is strictly between 10 and 150, and it
matches no skip pattern; then the next line is the company (rejected if
it matches a URL-ish pattern; bullets removed, `via ` dropped) and the
line after that the location, and the index advances by 3; otherwise it
advances by 1.  The loop runs while at least three lines remain
(`i < len(lines) - 2`) and fewer than 100 jobs are collected, so the
`i+1 < len(lines)` / `i+2 < len(lines)` fallbacks of the source are
dead code and do not appear here.
-/

/-- List `job_keywords` of `extract_jobs_from_page` (test_dataimpulse_500.py). -/
def jobKeywords : List Str :=
  ["Engineer".data, "Developer".data, "Manager".data, "Designer".data,
   "Analyst".data, "Architect".data, "Lead".data, "Senior".data,
   "Junior".data, "Staff".data, "Principal".data, "Full Stack".data,
   "Frontend".data, "Backend".data, "DevOps".data, "SRE".data, "QA".data,
   "Programmer".data, "Consultant".data, "Specialist".data, "Director".data]

/-- List `skip_patterns` of `extract_jobs_from_page` (test_dataimpulse_500.py). -/
def skipPatterns : List Str :=
  ["http".data, "www.".data, ".com".data, ".ca".data, "...".data,
   "Search".data, "Filter".data, "Sign in".data, "Menu".data,
   "Indeed".data, "LinkedIn".data, "Glassdoor".data, "jobs in".data,
   "Jobs in".data, "salary".data, "Salary".data, "course".data,
   "meaning".data, "roadmap".data, "Best".data, "Find the".data,
   "Apply to".data]

/-- The patterns the would-be company line is checked against
(`['http', '.com', '.ca', '...']` in test_dataimpulse_500.py 143). -/
def companySkipPatterns : List Str :=
  ["http".data, ".com".data, ".ca".data, "...".data]

/-- A job dict produced by the text extractor
(title, company, location, search_query). -/
structure TextJob where
  title : Str
  company : Str
  location : Str
  search_query : Str
deriving DecidableEq

/-- The company clean-up of the extractor: `company.replace('•', '')
.strip()`, then drop a leading `via `. -/
def cleanCompany (company : Str) : Str :=
  let c := pyStrip (pyRemoveChar '•' company)
  if pyStartsWith "via ".data c then c.drop 4 else c

/-- The scanning loop of `extract_jobs_from_page`
(test_dataimpulse_500.py 134-159), over the suffix of the line list
starting at the current index. -/
def extractGo (query location : Str) : List Str → List TextJob → List TextJob
  | line :: l1 :: l2 :: rest, jobs =>
    if jobs.length < 100 then
      if (jobKeywords.any fun kw => hasSub (lowerStr kw) (lowerStr line)) ∧
          10 < line.length ∧ line.length < 150 then
        if skipPatterns.any fun p => hasSub p line then
          extractGo query location (l1 :: l2 :: rest) jobs
        else
          if companySkipPatterns.any fun p => hasSub p l1 then
            extractGo query location rest jobs
          else
            let job : TextJob :=
              ⟨line, cleanCompany l1, pyStrip (pyRemoveChar '•' l2), query⟩
            if jobs.any fun jj =>
                jj.title = job.title ∧ jj.company = job.company then
              extractGo query location rest jobs
            else
              extractGo query location rest (jobs ++ [job])
      else
        extractGo query location (l1 :: l2 :: rest) jobs
    else jobs
  | _, jobs => jobs

/-- Function `extract_jobs_from_page` applied to an already line-split text. -/
def extractJobsFromLines (query location : Str) (lines : List Str) :
    List TextJob :=
  extractGo query location lines []

/-- The line clean-up of `extract_jobs_from_page`:
`[l.strip() for l in body_text.split('\n') if l.strip()]`. -/
def cleanLines (body : Str) : List Str :=
  ((pySplitChar '\n' body).map pyStrip).filter (· ≠ [])

/-- Function `extract_jobs_from_page` (test_dataimpulse_500.py 112-164) on the
visible body text. -/
def extract_jobs_from_page (query location body : Str) : List TextJob :=
  extractJobsFromLines query location (cleanLines body)

/-!
Section: deduplicating merge (`bulk_google_scrape.py`, lines 122-129)

The key set of the existing jobs is built first (lowercased title and company);
then each candidate whose key is not in the set is appended and its key
added; `added` counts the appended candidates.  The same loop appears in
`test_dataimpulse_500.py` 82-87 and `test_brightdata_500.py`.
-/

/-- The dedup key `(title.lower(), company.lower())`. -/
def textJobKey (j : TextJob) : Str × Str :=
  (lowerStr j.title, lowerStr j.company)

/-- The candidate loop of the merge: `keys` is the key set built so far,
`jobs` the collection, `added` the running count. -/
def mergeGo (keys : List (Str × Str)) (jobs : List TextJob) (added : Nat) :
    List TextJob → List TextJob × List (Str × Str) × Nat
  | [] => (jobs, keys, added)
  | c :: cs =>
    if textJobKey c ∈ keys then mergeGo keys jobs added cs
    else mergeGo (textJobKey c :: keys) (jobs ++ [c]) (added + 1) cs

/-- Contract merge(existing, candidates) to (merged, addedCount)
(bulk_google_scrape.py 122-129): the key set is initialised from the
existing collection. -/
def mergeJobs (existing cands : List TextJob) : List TextJob × Nat :=
  let r := mergeGo (existing.map textJobKey) existing 0 cands
  (r.1, r.2.2)

/-!
Section: URL-aware panel extraction (`google_scraper.py`, lines 255-356 and 357-556)

`_extract_job_from_panel` reads the right panel through a browser
script; the script's output is modelled as `RawPanel` (its `jobType`
and `salary` fields are never read back by the Python code and are
omitted).  The Python side rejects a panel without a title or without
apply URLs, labels each URL with a source, and
`_extract_jobs_with_scroll` appends the job unless its first apply URL
is empty or already seen.
-/

/-- Uppercase counterpart of `lowerChar` (for Python `str.title`). -/
def upperChar (c : Char) : Char :=
  if 'a' ≤ c ∧ c ≤ 'z' then Char.ofNat (c.toNat - 32) else c

/-- Python `str.title` on ASCII text: an alphabetic character is
uppercased after a non-alphabetic one and lowercased otherwise. -/
def pyTitleGo : Bool → Str → Str
  | _, [] => []
  | prev, c :: cs =>
      (if c.isAlpha then (if prev then lowerChar c else upperChar c) else c)
        :: pyTitleGo c.isAlpha cs

/-- Python `s.title()`. -/
def pyTitle (s : Str) : Str := pyTitleGo false s

/-- The group of `re.search(r'https?://(?:www\.)?([^/]+)', url)` when the
scheme occurs at the head of the remaining text: the host up to the
next `/`, where a `www.` prefix is skipped unless nothing follows it
before a `/`. -/
def domainAfterScheme (r : Str) : Option Str :=
  let cand :=
    if pyStartsWith "www.".data r then
      let d := (r.drop 4).takeWhile (· ≠ '/')
      if d = [] then r.takeWhile (· ≠ '/') else d
    else r.takeWhile (· ≠ '/')
  if cand = [] then none else some cand

/-- Model of the search for the URL-domain pattern (google_scraper.py
543): scan for the first scheme occurrence that is followed by a
non-empty host. -/
def findDomain : Str → Option Str
  | [] => none
  | c :: cs =>
      if pyStartsWith "https://".data (c :: cs) then
        match domainAfterScheme ((c :: cs).drop 8) with
        | some d => some d
        | none => findDomain cs
      else if pyStartsWith "http://".data (c :: cs) then
        match domainAfterScheme ((c :: cs).drop 7) with
        | some d => some d
        | none => findDomain cs
      else findDomain cs

/-- The source label given to one apply URL
(google_scraper.py 530-545). -/
def urlSource (url : Str) : Str :=
  if hasSub "indeed.com".data url then "Indeed".data
  else if hasSub "linkedin.com".data url then "LinkedIn".data
  else if hasSub "glassdoor".data url then "Glassdoor".data
  else if hasSub "ziprecruiter".data url then "ZipRecruiter".data
  else match findDomain url with
    | some d => pyTitle (d.takeWhile (· ≠ '.'))
    | none => "Unknown".data

/-- The dictionary produced by the panel-reading browser script in
`_extract_job_from_panel` (its `jobType` and `salary` entries are not
read back and are omitted). -/
structure RawPanel where
  title : Str
  company : Str
  location : Str
  description : Str
  postedDate : Str
  applyUrls : List Str
deriving DecidableEq

/-- The dictionary `_extract_job_from_panel` returns on success. -/
structure PanelJob where
  title : Str
  company : Str
  location : Str
  description : Str
  apply_urls : List ApplyUrl
  postedDate : Option Str
deriving DecidableEq

/-- Function `_extract_job_from_panel` (google_scraper.py 357-556): reject a
panel without a title or without apply URLs, else label each URL with
its source; an empty company becomes "Unknown", an empty posted date
becomes `None`. -/
def extract_job_from_panel (raw : RawPanel) : Option PanelJob :=
  if raw.title = [] ∨ raw.applyUrls = [] then none
  else some
    ⟨raw.title,
     if raw.company = [] then "Unknown".data else raw.company,
     raw.location,
     raw.description,
     raw.applyUrls.map (fun u => ⟨u, urlSource u⟩),
     if raw.postedDate = [] then none else some raw.postedDate⟩

/-- Dedup key of `_extract_jobs_with_scroll`: the first apply URL of a
collected job, or the empty string (google_scraper.py 331). -/
def firstApplyUrl (j : GoogleJob) : Str :=
  match j.apply_urls with
  | [] => []
  | u :: _ => u.url

/-- The first apply URL of a panel job (google_scraper.py 332). -/
def pjFirstUrl (jd : PanelJob) : Str :=
  match jd.apply_urls with
  | [] => []
  | u :: _ => u.url

/-- The admission step of `_extract_jobs_with_scroll`
(google_scraper.py 329-344): a candidate with apply URLs is appended
unless its first apply URL is empty or equals the first apply URL of an
already collected job. -/
def admitPanelJob (query : Str) (all_jobs : List GoogleJob)
    (jd : PanelJob) : List GoogleJob :=
  if jd.apply_urls ≠ [] then
    if pjFirstUrl jd ≠ [] ∧ pjFirstUrl jd ∉ all_jobs.map firstApplyUrl then
      all_jobs ++
        [⟨jd.title, jd.company, jd.location, some jd.description,
          jd.apply_urls, query, jd.postedDate⟩]
    else all_jobs
  else all_jobs

/-- One clicked card of `_extract_jobs_with_scroll`: panel extraction
followed by the admission step. -/
def processPanel (query : Str) (all_jobs : List GoogleJob)
    (raw : RawPanel) : List GoogleJob :=
  match extract_job_from_panel raw with
  | none => all_jobs
  | some jd => admitPanelJob query all_jobs jd

/-- The collection built by `_extract_jobs_with_scroll` over the
sequence of panels read after clicking cards (scrolling and the card
tracker only decide which panels are visited). -/
def collectJobs (query : Str) (panels : List RawPanel) : List GoogleJob :=
  panels.foldl (processPanel query) []

/-- A collected job used in the concrete dedup-key scenarios. -/
def jobA : GoogleJob :=
  ⟨"X".data, "Y".data, "L".data, none,
   [⟨"http://a".data, "S".data⟩], "q".data, none⟩

/-- A later panel candidate with the same title and company as `jobA`
but a different first apply URL. -/
def jdB : PanelJob :=
  ⟨"X".data, "Y".data, "L".data, "D".data,
   [⟨"http://b".data, "S".data⟩], none⟩

/-- A text job used in concrete scroll-loop and collection scenarios. -/
def tjW : TextJob :=
  ⟨"Backend Engineer".data, "Acme".data, "Toronto".data, "q".data⟩

/-- A panel used in the concrete URL-aware collection scenario. -/
def rawW : RawPanel :=
  ⟨"T".data, "C".data, "L".data, "D".data, [], ["http://a".data]⟩

/-- The job `collectJobs` builds from `rawW`. -/
def jW : GoogleJob :=
  ⟨"T".data, "C".data, "L".data, some "D".data,
   [⟨"http://a".data, "A".data⟩], "q".data, none⟩

/-- An environment value loading two proxies, for the concrete proxy
pool scenario. -/
def envW : Str := "http://u:p@h:1, http://u:p@h:2".data

/-!
Section: scroll pagination loop (`bulk_google_scrape.py`, lines 90-138)

After the initial extraction the loop scrolls, re-extracts, merges via
the deduplicating merge, counts consecutive rounds without growth and
stops at 3 of them, at `max_scroll_attempts` rounds, or at `max_jobs`
collected.  `newJobs` is the (constant) result the re-extraction
yields each round; `fuel` is `max_scroll_attempts - scroll_attempts`.
The identical loop appears in `test_dataimpulse_500.py` 61-95 and
`test_brightdata_500.py`.
-/

/-- One run of the scroll loop of `scrape_google_jobs_with_proxy`
(bulk_google_scrape.py 95-138), returning the final collection and the
number of scroll rounds executed. -/
def scrollGo (newJobs : List TextJob) (maxJobs : Nat) :
    List TextJob → Nat → Nat → Nat → Nat → List TextJob × Nat
  | jobs, _, _, rounds, 0 => (jobs, rounds)
  | jobs, lastCount, noNew, rounds, fuel + 1 =>
    if jobs.length < maxJobs then
      let jobs' := (mergeJobs jobs newJobs).1
      if jobs'.length = lastCount then
        if 3 ≤ noNew + 1 then (jobs', rounds + 1)
        else scrollGo newJobs maxJobs jobs' lastCount (noNew + 1)
          (rounds + 1) fuel
      else scrollGo newJobs maxJobs jobs' jobs'.length 0 (rounds + 1) fuel
    else (jobs, rounds)

/-- The scroll loop started on the initial extraction `initJobs` with
`scroll_attempts = 0`, `last_job_count = len(jobs)`,
`no_new_jobs_count = 0`. -/
def scrollLoop (newJobs : List TextJob) (maxJobs maxScroll : Nat)
    (initJobs : List TextJob) : List TextJob × Nat :=
  scrollGo newJobs maxJobs initJobs initJobs.length 0 0 maxScroll

/-!
Section: proxy pool (`proxy_pool.py`)

`ProxyPool.__init__` loads a comma-separated list from the
`JOBSPY_PROXIES` environment value, stripping entries and dropping
empty ones, with cursor 0; `get_next` returns `None` on an empty pool
and otherwise the proxy at the cursor, advancing the cursor modulo the
pool size.
-/

/-- The `ProxyPool` state: loaded proxies and the round-robin cursor. -/
structure ProxyPool where
  proxies : List Str
  currentIndex : Nat
deriving DecidableEq

/-- The proxy parsing of `ProxyPool.__init__` (proxy_pool.py 38-41):
`[proxy.strip() for proxy in proxies_str.split(",") if proxy.strip()]`. -/
def loadProxies (s : Str) : List Str :=
  ((pySplitChar ',' s).map pyStrip).filter (· ≠ [])

/-- Constructor `ProxyPool.__init__` on the environment value `s`. -/
def ProxyPool.ofEnv (s : Str) : ProxyPool :=
  ⟨loadProxies s, 0⟩

/-- Method `ProxyPool.get_next` (proxy_pool.py 53-68): `None` on an empty pool,
else the proxy at the cursor, with the cursor advanced modulo the pool
size. -/
def ProxyPool.get_next (p : ProxyPool) : Option Str × ProxyPool :=
  match p.proxies with
  | [] => (none, p)
  | _ :: _ =>
    (p.proxies.get? p.currentIndex,
     ⟨p.proxies, (p.currentIndex + 1) % p.proxies.length⟩)

/-- The pool state after `k` calls to `get_next`. -/
def poolAfter (p : ProxyPool) : Nat → ProxyPool
  | 0 => p
  | k + 1 => (ProxyPool.get_next (poolAfter p k)).2

end JobFinder

namespace JobFinder

/-- The merge only ever appends: the prior collection is a prefix of the
result. -/
theorem mergeGo_append (keys : List (Str × Str)) (jobs : List TextJob)
    (added : Nat) (cs : List TextJob) :
    ∃ t, (mergeGo keys jobs added cs).1 = jobs ++ t := by
  induction cs generalizing keys jobs added with
  | nil => exact ⟨[], by simp [mergeGo]⟩
  | cons c cs ih =>
    by_cases hk : textJobKey c ∈ keys
    · simpa [mergeGo, hk] using ih keys jobs added
    · obtain ⟨t, ht⟩ := ih (textJobKey c :: keys) (jobs ++ [c]) (added + 1)
      exact ⟨c :: t, by simp [mergeGo, hk, ht]⟩

/-- After the merge, every candidate's key occurs among the keys of the
resulting collection, provided the incoming key set is covered by the
incoming collection. -/
theorem mergeGo_covers (keys : List (Str × Str)) (jobs : List TextJob)
    (added : Nat) (cs : List TextJob)
    (hcov : ∀ k ∈ keys, k ∈ jobs.map textJobKey) :
    ∀ c ∈ cs, textJobKey c ∈ (mergeGo keys jobs added cs).1.map textJobKey := by
  induction cs generalizing keys jobs added with
  | nil => intro c hc; exact absurd hc (List.not_mem_nil c)
  | cons d ds ih =>
    intro c hc
    by_cases hk : textJobKey d ∈ keys
    · rw [mergeGo, if_pos hk]
      rcases List.mem_cons.mp hc with hcd | hcs
      · subst hcd
        obtain ⟨t, ht⟩ := mergeGo_append keys jobs added ds
        rw [ht, List.map_append]
        exact List.mem_append_left _ (hcov _ hk)
      · exact ih keys jobs added hcov c hcs
    · rw [mergeGo, if_neg hk]
      have hcov' : ∀ k ∈ textJobKey d :: keys,
          k ∈ (jobs ++ [d]).map textJobKey := by
        intro k hkmem
        rw [List.map_append]
        rcases List.mem_cons.mp hkmem with hkd | hkk
        · subst hkd; simp
        · exact List.mem_append_left _ (hcov _ hkk)
      rcases List.mem_cons.mp hc with hcd | hcs
      · subst hcd
        obtain ⟨t, ht⟩ :=
          mergeGo_append (textJobKey c :: keys) (jobs ++ [c]) (added + 1) ds
        rw [ht, List.map_append, List.map_append]
        exact List.mem_append_left _ (List.mem_append_right _ (by simp))
      · exact ih (textJobKey d :: keys) (jobs ++ [d]) (added + 1) hcov' c hcs

/-- When every candidate's key is already present, the merge is a
no-op. -/
theorem mergeGo_noop (keys : List (Str × Str)) (jobs : List TextJob)
    (added : Nat) (cs : List TextJob)
    (h : ∀ c ∈ cs, textJobKey c ∈ keys) :
    mergeGo keys jobs added cs = (jobs, keys, added) := by
  induction cs with
  | nil => rfl
  | cons c cs ih =>
    have hk : textJobKey c ∈ keys := h c (List.mem_cons_self c cs)
    rw [mergeGo, if_pos hk]
    exact ih (fun d hd => h d (List.mem_cons_of_mem c hd))

/-- Claim C6: the deduplicating merge (key = lowercased title and
company) is idempotent: merging the same candidate batch again into the
merged collection adds zero records and returns the same final
collection, so the total added count equals that of merging once; and
the merge only appends, so the first-seen instance of each key is
retained. -/
theorem mergeJobs_idempotent (E C : List TextJob) :
    mergeJobs (mergeJobs E C).1 C = ((mergeJobs E C).1, 0) ∧
    ∃ t, (mergeJobs E C).1 = E ++ t := by
  constructor
  · have hcov : ∀ k ∈ E.map textJobKey, k ∈ E.map textJobKey :=
      fun k hk => hk
    have hall : ∀ c ∈ C,
        textJobKey c ∈ (mergeGo (E.map textJobKey) E 0 C).1.map textJobKey :=
      mergeGo_covers (E.map textJobKey) E 0 C hcov
    unfold mergeJobs
    rw [mergeGo_noop _ _ _ C hall]
  · exact mergeGo_append (E.map textJobKey) E 0 C

end JobFinder

namespace JobFinder


/-- Claim C3: after a page is loaded, the attempt fails with a
blocked-page error iff the content case-insensitively contains
"unusual traffic" or "captcha"; absent such a signature it fails with a
partial-load error iff the content length is below 50000; in every
other case the content is treated as usable and extraction proceeds. -/
theorem classifyContent_spec (content : Str) :
    (classifyContent content = .blocked ↔
      (hasSub "unusual traffic".data (lowerStr content) = true ∨
       hasSub "captcha".data (lowerStr content) = true)) ∧
    ((¬ (hasSub "unusual traffic".data (lowerStr content) = true ∨
         hasSub "captcha".data (lowerStr content) = true)) →
      (classifyContent content = .shortLoad ↔ content.length < 50000)) ∧
    ((¬ (hasSub "unusual traffic".data (lowerStr content) = true ∨
         hasSub "captcha".data (lowerStr content) = true)) →
      ¬ content.length < 50000 →
      classifyContent content = .usable) := by
  cases hu : hasSub "unusual traffic".data (lowerStr content) <;>
    cases hc : hasSub "captcha".data (lowerStr content) <;>
      by_cases hl : content.length < 50000 <;>
        simp [classifyContent, hu, hc, hl]

/-- Claim C3 witness: a concrete blocked page, evaluated. -/
theorem classifyContent_spec_witness :
    classifyContent "You sent Unusual Traffic from your network".data = .blocked :=
  ((classifyContent_spec
      "You sent Unusual Traffic from your network".data).1).mpr
    (Or.inl (by decide))

/-- Claim C4: the delay slept between retry attempts equals
`2 ^ attempt` plus the jitter drawn from `[1, 3]`; hence for every
attempt `a` and jitter `j` in `[1, 3]` the delay is at least `2 ^ a`,
and for fixed jitter the delay is non-decreasing in the attempt
number. -/
theorem backoffDelay_bounds (a b : Nat) (j : ℚ)
    (h1 : 1 ≤ j) (h3 : j ≤ 3) (hab : a ≤ b) :
    (2 : ℚ) ^ a ≤ backoffDelay a j ∧ backoffDelay a j ≤ backoffDelay b j := by
  constructor
  · have h0 : (0 : ℚ) ≤ j := le_trans (by norm_num) h1
    unfold backoffDelay
    linarith
  · unfold backoffDelay
    have hpow : (2 : ℚ) ^ a ≤ 2 ^ b :=
      pow_le_pow_right₀ (by norm_num) hab
    linarith

/-- Claim C4 witness: concrete attempt numbers 1 ≤ 2 and jitter 2. -/
theorem backoffDelay_bounds_witness :
    (2 : ℚ) ^ 1 ≤ backoffDelay 1 2 ∧ backoffDelay 1 2 ≤ backoffDelay 2 2 :=
  backoffDelay_bounds 1 2 2 (by norm_num) (by norm_num) (by norm_num)

/-- If every attempt from `attempt` on fails, the retry loop falls
through to `return []`. -/
theorem scrapeAux_all_fail (outcome : Nat → AttemptOutcome)
    (maxRetries attempt : Nat)
    (h : ∀ i, attempt ≤ i → i < maxRetries →
      (outcome i).successful = false) :
    (scrapeAux outcome maxRetries attempt).result = [] := by
  unfold scrapeAux
  split
  · rename_i hlt
    rw [h attempt le_rfl hlt]
    simp only [Bool.false_eq_true, if_false]
    exact scrapeAux_all_fail outcome maxRetries (attempt + 1)
      (fun i hi hil => h i (by omega) hil)
  · rfl
termination_by maxRetries - attempt
decreasing_by omega

/-- Claim C1: if every one of the `maxRetries` attempts either yields
zero job records or raises an exception, then `scrape` returns the
empty list; in this embedding `scrape` is a total function into
`ScrapeTrace` because the loop catches every attempt exception, so no
exception reaches the caller. -/
theorem scrape_all_fail (outcome : Nat → AttemptOutcome) (maxRetries : Nat)
    (h : ∀ i, i < maxRetries → (outcome i).successful = false) :
    (scrape outcome maxRetries).result = [] :=
  scrapeAux_all_fail outcome maxRetries 0 (fun i _ hil => h i hil)

/-- Claim C1 witness: two attempts, one raising and one empty. -/
theorem scrape_all_fail_witness :
    (∀ i, i < 2 →
      ((fun k => if k = 0 then AttemptOutcome.raised
                 else AttemptOutcome.yields []) i).successful = false) ∧
    (scrape (fun k => if k = 0 then AttemptOutcome.raised
                      else AttemptOutcome.yields []) 2).result = [] :=
  ⟨by decide,
   scrape_all_fail
     (fun k => if k = 0 then AttemptOutcome.raised
               else AttemptOutcome.yields []) 2 (by decide)⟩

/-- If attempts before `i` fail and attempt `i` yields a non-empty list,
the loop started at `attempt ≤ i` returns that list after attempt `i`,
having slept exactly after the failed attempts `attempt, …, i-1`. -/
theorem scrapeAux_first_success (outcome : Nat → AttemptOutcome)
    (maxRetries attempt i : Nat) (j : GoogleJob) (js : List GoogleJob)
    (hai : attempt ≤ i) (hi : i < maxRetries)
    (hsucc : outcome i = .yields (j :: js))
    (hfail : ∀ k, k < i → (outcome k).successful = false) :
    scrapeAux outcome maxRetries attempt =
      ⟨j :: js, i + 1, List.range' attempt (i - attempt)⟩ := by
  unfold scrapeAux
  rcases Nat.eq_or_lt_of_le hai with heq | hlt
  · subst heq
    rw [dif_pos hi, hsucc]
    simp [AttemptOutcome.successful, AttemptOutcome.jobList]
  · rw [dif_pos (by omega)]
    rw [hfail attempt hlt]
    simp only [Bool.false_eq_true, if_false]
    rw [scrapeAux_first_success outcome maxRetries (attempt + 1) i j js
      (by omega) hi hsucc hfail]
    have hn : i - attempt = (i - (attempt + 1)) + 1 := by omega
    rw [hn, List.range'_succ]
termination_by maxRetries - attempt
decreasing_by omega

/-- Claim C2: if attempt `i` (with `i < maxRetries`) is the first to
yield at least one job record, `scrape` returns that attempt's record
list immediately: exactly `i + 1` attempts run (no attempt after `i`),
and backoff sleeps follow exactly the failed attempts `0, …, i-1`, so
no sleep follows the successful attempt. -/
theorem scrape_first_success (outcome : Nat → AttemptOutcome)
    (maxRetries i : Nat) (j : GoogleJob) (js : List GoogleJob)
    (hi : i < maxRetries)
    (hsucc : outcome i = .yields (j :: js))
    (hfail : ∀ k, k < i → (outcome k).successful = false) :
    scrape outcome maxRetries = ⟨j :: js, i + 1, List.range i⟩ := by
  unfold scrape
  rw [scrapeAux_first_success outcome maxRetries 0 i j js (Nat.zero_le i)
    hi hsucc hfail]
  rw [List.range_eq_range']
  simp

/-- Claim C2 witness: the second of three attempts succeeds with one
job; one attempt follows none after it, and the only sleep follows the
failed attempt 0. -/
theorem scrape_first_success_witness :
    scrape (fun k => if k = 1
        then AttemptOutcome.yields
          [⟨"t".data, "c".data, "l".data, none, [], "q".data, none⟩]
        else AttemptOutcome.raised) 3 =
      ⟨[⟨"t".data, "c".data, "l".data, none, [], "q".data, none⟩],
        2, List.range 1⟩ :=
  scrape_first_success
    (fun k => if k = 1
      then AttemptOutcome.yields
        [⟨"t".data, "c".data, "l".data, none, [], "q".data, none⟩]
      else AttemptOutcome.raised)
    3 1 ⟨"t".data, "c".data, "l".data, none, [], "q".data, none⟩ []
    (by decide) (by decide) (by decide)

/-- Claim C5: on trimmed non-empty lines ["Senior Backend Engineer",
"Acme Corp", "Toronto, ON", "Data Analyst", "http://example.com",
"..."], the extractor yields exactly one record (title "Senior Backend
Engineer", company "Acme Corp", location "Toronto, ON"); the window
starting at "Data Analyst" emits nothing because its would-be company
line "http://example.com" matches the skip pattern "http". -/
theorem extract_scenario :
    extractJobsFromLines "q".data "Toronto".data
      ["Senior Backend Engineer".data, "Acme Corp".data, "Toronto, ON".data,
       "Data Analyst".data, "http://example.com".data, "...".data] =
      [⟨"Senior Backend Engineer".data, "Acme Corp".data,
        "Toronto, ON".data, "q".data⟩] := by
  decide

/-- Claim C7 counterexample: in the URL-aware extraction mode a
candidate whose lowercased title and company equal those of an already
collected job is nevertheless appended (the code dedups by first apply
URL), so the claimed dedup key is wrong for that mode. -/
theorem urlAware_dedup_cex :
    (admitPanelJob "q".data [jobA] jdB).length = 2 ∧
    lowerStr jdB.title = lowerStr jobA.title ∧
    lowerStr jdB.company = lowerStr jobA.company := by
  decide

/-- Claim C7 (amended): in the URL-aware extraction mode a candidate
with apply URLs is discarded as a duplicate iff its first apply URL is
empty or equals the first apply URL of some previously collected
record; otherwise it is appended after the previously collected
records, so the first-seen instance of each first apply URL is
retained. -/
theorem urlAware_dedup_by_first_url (query : Str) (all : List GoogleJob)
    (jd : PanelJob) (h : jd.apply_urls ≠ []) :
    (admitPanelJob query all jd = all ↔
      (pjFirstUrl jd = [] ∨ pjFirstUrl jd ∈ all.map firstApplyUrl)) ∧
    (pjFirstUrl jd ≠ [] → pjFirstUrl jd ∉ all.map firstApplyUrl →
      admitPanelJob query all jd = all ++
        [⟨jd.title, jd.company, jd.location, some jd.description,
          jd.apply_urls, query, jd.postedDate⟩]) := by
  unfold admitPanelJob
  rw [if_pos h]
  by_cases h2 : pjFirstUrl jd ≠ [] ∧ pjFirstUrl jd ∉ all.map firstApplyUrl
  · rw [if_pos h2]
    constructor
    · constructor
      · intro heq
        have hlen := congrArg List.length heq
        simp at hlen
      · intro hor
        rcases hor with he | hm
        · exact absurd he h2.1
        · exact absurd hm h2.2
    · intro _ _; rfl
  · rw [if_neg h2]
    constructor
    · constructor
      · intro _
        rcases Decidable.not_and_iff_or_not.mp h2 with ha | hb
        · exact Or.inl (Decidable.not_not.mp ha)
        · exact Or.inr (Decidable.not_not.mp hb)
      · intro _; rfl
    · intro hne hnm; exact absurd ⟨hne, hnm⟩ h2

/-- Claim C7 (amended) witness: a concrete candidate against an empty
collection. -/
theorem urlAware_dedup_by_first_url_witness :
    jdB.apply_urls ≠ [] ∧
    ((admitPanelJob "q".data [] jdB = [] ↔
      (pjFirstUrl jdB = [] ∨
       pjFirstUrl jdB ∈ ([] : List GoogleJob).map firstApplyUrl)) ∧
    (pjFirstUrl jdB ≠ [] →
      pjFirstUrl jdB ∉ ([] : List GoogleJob).map firstApplyUrl →
      admitPanelJob "q".data [] jdB = [] ++
        [⟨jdB.title, jdB.company, jdB.location, some jdB.description,
          jdB.apply_urls, "q".data, jdB.postedDate⟩])) :=
  ⟨by decide, urlAware_dedup_by_first_url "q".data [] jdB (by decide)⟩

/-- When the collection already has `maxJobs` jobs, the scroll loop
executes no round. -/
theorem scrollGo_maxed (newJobs : List TextJob) (maxJobs : Nat)
    (jobs : List TextJob) (lastCount noNew rounds fuel : Nat)
    (hl : ¬ jobs.length < maxJobs) :
    scrollGo newJobs maxJobs jobs lastCount noNew rounds fuel =
      (jobs, rounds) := by
  cases fuel with
  | zero => rfl
  | succ fuel => rw [scrollGo, if_neg hl]

/-- When each round's merge leaves the collection unchanged, the scroll
loop stalls out: it runs exactly enough rounds to raise the no-growth
counter to 3, fuel permitting. -/
theorem scrollGo_noGrow (newJobs : List TextJob) (maxJobs : Nat)
    (init : List TextJob) (hm : (mergeJobs init newJobs).1 = init)
    (hl : init.length < maxJobs) :
    ∀ fuel noNew rounds, noNew ≤ 2 →
      scrollGo newJobs maxJobs init init.length noNew rounds fuel =
        (init, rounds + min fuel (3 - noNew)) := by
  intro fuel
  induction fuel with
  | zero => intro noNew rounds _; simp [scrollGo]
  | succ fuel ih =>
    intro noNew rounds hn
    rw [scrollGo, if_pos hl, hm, if_pos rfl]
    by_cases h3 : 3 ≤ noNew + 1
    · rw [if_pos h3]
      have : rounds + min (fuel + 1) (3 - noNew) = rounds + 1 := by omega
      rw [this]
    · rw [if_neg h3]
      rw [ih (noNew + 1) (rounds + 1) (by omega)]
      have : (rounds + 1) + min fuel (3 - (noNew + 1)) =
          rounds + min (fuel + 1) (3 - noNew) := by omega
      rw [this]

/-- Claim C8: if the page content never changes (each round's
re-extraction yields only records whose dedup key is already in the
initial collection), the scroll pagination loop executes at most 3
rounds (the stall threshold of the scroll variants), and the number of
rounds is the same for any two round bounds of at least 3. -/
theorem scrollLoop_stall (newJobs init : List TextJob) (maxJobs m : Nat)
    (hz : ∀ c ∈ newJobs, textJobKey c ∈ init.map textJobKey) :
    (scrollLoop newJobs maxJobs m init).2 ≤ 3 ∧
    ∀ m', 3 ≤ m → 3 ≤ m' →
      (scrollLoop newJobs maxJobs m init).2 =
        (scrollLoop newJobs maxJobs m' init).2 := by
  have hm : (mergeJobs init newJobs).1 = init := by
    unfold mergeJobs
    rw [mergeGo_noop _ _ _ newJobs hz]
  by_cases hl : init.length < maxJobs
  · have hrun : ∀ mm, scrollLoop newJobs maxJobs mm init =
        (init, min mm 3) := by
      intro mm
      unfold scrollLoop
      rw [scrollGo_noGrow newJobs maxJobs init hm hl mm 0 0 (by omega)]
      norm_num
    constructor
    · rw [hrun m]; exact min_le_right m 3
    · intro m' hmm hmm'
      rw [hrun m, hrun m']
      simp only
      omega
  · have hrun : ∀ mm, scrollLoop newJobs maxJobs mm init = (init, 0) := by
      intro mm
      unfold scrollLoop
      exact scrollGo_maxed newJobs maxJobs init init.length 0 0 mm hl
    constructor
    · rw [hrun m]; omega
    · intro m' _ _
      rw [hrun m, hrun m']

/-- Claim C8 witness: a one-job collection whose re-extraction always
yields the same job; round bounds 10 and 7. -/
theorem scrollLoop_stall_witness :
    (scrollLoop [tjW] 5 10 [tjW]).2 ≤ 3 ∧
    (scrollLoop [tjW] 5 10 [tjW]).2 = (scrollLoop [tjW] 5 7 [tjW]).2 :=
  ⟨(scrollLoop_stall [tjW] [tjW] 5 10 (by decide)).1,
   (scrollLoop_stall [tjW] [tjW] 5 10 (by decide)).2 7 (by decide) (by decide)⟩

/-- The admission step preserves the at-least-one-apply-URL invariant:
a job is only ever appended together with the candidate's non-empty
apply URL list. -/
theorem admitPanelJob_invariant (query : Str) (acc : List GoogleJob)
    (jd : PanelJob) (hacc : ∀ j ∈ acc, 1 ≤ j.apply_urls.length) :
    ∀ j ∈ admitPanelJob query acc jd, 1 ≤ j.apply_urls.length := by
  unfold admitPanelJob
  by_cases h1 : jd.apply_urls ≠ []
  · rw [if_pos h1]
    by_cases h2 : pjFirstUrl jd ≠ [] ∧ pjFirstUrl jd ∉ acc.map firstApplyUrl
    · rw [if_pos h2]
      intro j hj
      rcases List.mem_append.mp hj with hja | hjn
      · exact hacc j hja
      · have hjeq : j = ⟨jd.title, jd.company, jd.location,
            some jd.description, jd.apply_urls, query, jd.postedDate⟩ := by
          simpa using hjn
        subst hjeq
        exact Nat.one_le_iff_ne_zero.mpr
          (fun hzero => h1 (List.length_eq_zero.mp hzero))
    · rw [if_neg h2]
      exact hacc
  · rw [if_neg h1]
    exact hacc

/-- One panel-processing step preserves the invariant. -/
theorem processPanel_invariant (query : Str) (acc : List GoogleJob)
    (p : RawPanel) (hacc : ∀ j ∈ acc, 1 ≤ j.apply_urls.length) :
    ∀ j ∈ processPanel query acc p, 1 ≤ j.apply_urls.length := by
  unfold processPanel
  cases hE : extract_job_from_panel p with
  | none => exact hacc
  | some jd => exact admitPanelJob_invariant query acc jd hacc

/-- Claim C9: in the URL-aware extraction mode every job record in the
returned collection has at least one apply URL; a panel candidate
lacking a title or lacking apply URLs is discarded before a record is
constructed. -/
theorem collectJobs_apply_urls (query : Str) (panels : List RawPanel) :
    ∀ j ∈ collectJobs query panels, 1 ≤ j.apply_urls.length := by
  unfold collectJobs
  have haux : ∀ (ps : List RawPanel) (acc : List GoogleJob),
      (∀ j ∈ acc, 1 ≤ j.apply_urls.length) →
      ∀ j ∈ ps.foldl (processPanel query) acc, 1 ≤ j.apply_urls.length := by
    intro ps
    induction ps with
    | nil => intro acc hacc; simpa using hacc
    | cons p ps ih =>
      intro acc hacc
      exact ih (processPanel query acc p)
        (processPanel_invariant query acc p hacc)
  exact haux panels [] (fun j hj => absurd hj (List.not_mem_nil j))

/-- Claim C9 witness: one panel with one apply URL produces one record,
and that record has at least one apply URL. -/
theorem collectJobs_apply_urls_witness :
    jW ∈ collectJobs "q".data [rawW] ∧ 1 ≤ jW.apply_urls.length :=
  ⟨by decide, collectJobs_apply_urls "q".data [rawW] jW (by decide)⟩

/-- An empty pool is unchanged by `get_next`. -/
theorem poolAfter_nil (i k : Nat) :
    poolAfter ⟨[], i⟩ k = ⟨[], i⟩ := by
  induction k with
  | zero => rfl
  | succ k ih => rw [poolAfter, ih]; rfl

/-- On a non-empty pool starting at cursor 0, `k` calls leave the cursor
at `k mod n`. -/
theorem poolAfter_cons (ps : List Str) (hne : ps ≠ []) (k : Nat) :
    poolAfter ⟨ps, 0⟩ k = ⟨ps, k % ps.length⟩ := by
  induction k with
  | zero => rw [poolAfter, Nat.zero_mod]
  | succ k ih =>
    rw [poolAfter, ih]
    cases ps with
    | nil => exact absurd rfl hne
    | cons a as =>
      show (⟨a :: as, ((k % (a :: as).length) + 1) % (a :: as).length⟩ :
          ProxyPool) = _
      rw [Nat.mod_add_mod]

/-- Method `get_next` on a non-empty pool returns the entry at the cursor. -/
theorem get_next_fst (ps : List Str) (hne : ps ≠ []) (i : Nat) :
    (ProxyPool.get_next ⟨ps, i⟩).1 = ps.get? i := by
  cases ps with
  | nil => exact absurd rfl hne
  | cons a as => rfl

/-- Claim C10: `get_next` returns `None` iff the pool is empty; on a
pool constructed from the environment value `s` with `n ≥ 1` loaded
proxies, the `k`-th call (`k ≥ 1`) returns the proxy at index
`(k-1) mod n` of the loaded list, and the cursor always stays below
`n` (below 1 for an empty pool). -/
theorem proxyPool_get_next_spec (s : Str) (k : Nat) (hk : 1 ≤ k) :
    ((ProxyPool.get_next (poolAfter (ProxyPool.ofEnv s) (k - 1))).1 = none
      ↔ loadProxies s = []) ∧
    (ProxyPool.get_next (poolAfter (ProxyPool.ofEnv s) (k - 1))).1 =
      (loadProxies s).get? ((k - 1) % (loadProxies s).length) ∧
    (poolAfter (ProxyPool.ofEnv s) k).currentIndex <
      max 1 (loadProxies s).length := by
  unfold ProxyPool.ofEnv
  by_cases hne : loadProxies s = []
  · rw [hne]
    rw [poolAfter_nil, poolAfter_nil]
    refine ⟨⟨fun _ => rfl, fun _ => rfl⟩, ?_, ?_⟩
    · rfl
    · simp
  · have hpos : 0 < (loadProxies s).length := List.length_pos.mpr hne
    rw [poolAfter_cons _ hne, poolAfter_cons _ hne]
    rw [get_next_fst _ hne]
    have hlt : (k - 1) % (loadProxies s).length < (loadProxies s).length :=
      Nat.mod_lt _ hpos
    refine ⟨?_, rfl, ?_⟩
    · constructor
      · intro hnone
        have := List.get?_eq_none.mp hnone
        omega
      · intro habs; exact absurd habs hne
    · show k % (loadProxies s).length < _
      have := Nat.mod_lt k hpos
      omega

/-- Claim C10 witness: two loaded proxies, third call returns the
first. -/
theorem proxyPool_get_next_spec_witness :
    ((ProxyPool.get_next (poolAfter (ProxyPool.ofEnv envW) (3 - 1))).1 = none
      ↔ loadProxies envW = []) ∧
    (ProxyPool.get_next (poolAfter (ProxyPool.ofEnv envW) (3 - 1))).1 =
      (loadProxies envW).get? ((3 - 1) % (loadProxies envW).length) ∧
    (poolAfter (ProxyPool.ofEnv envW) 3).currentIndex <
      max 1 (loadProxies envW).length :=
  proxyPool_get_next_spec envW 3 (by decide)

end JobFinder
